import Mathlib

/-!
Verification of the twitter client core (`packages/client-twitter-api/src/base.ts`):
the request queue (`RequestQueue`), the auth/rate-limit wrapper
(`executeWithTokenRefresh`), the two-tier tweet cache (`cacheTweet`,
`getCachedTweet`, `getTweet`) and the timeline reconciliation step of
`populateTimeline`, as a shallow embedding.
-/

/-- A queued task, as observed by the drain loop of `RequestQueue`: the
caller's operation is abstracted by the number of failures it would produce if
attempted repeatedly (`failures`; `0` means its single execution succeeds),
plus a ghost attempt counter (`attempt`, `0` at enqueue time) used only to
label trace events. -/
structure QTask where
  id : Nat
  failures : Nat
  attempt : Nat
deriving DecidableEq, Repr

/-- Observable events of the drain loop `RequestQueue.processQueue`: execution
of a task's request (resolving or rejecting its promise), the backoff sleep of
`exponentialBackoff`, and the inter-task jitter of `randomDelay`. -/
inductive Event where
  | exec (id : Nat) (attempt : Nat) (success : Bool)
  | backoff (delayMs : Nat)
  | jitter
deriving DecidableEq, Repr

/-- `RequestQueue.exponentialBackoff`: delay of `2 ^ retryCount * 1000` ms. -/
def backoffDelay (retryCount : Nat) : Nat := 2 ^ retryCount * 1000

/-- The drain loop of `RequestQueue.processQueue` over a queue of tasks. Each
queued closure was built by `RequestQueue.add`, whose own try/catch resolves or
rejects the caller's promise and then returns normally either way, so
`await request()` inside the loop never throws: the loop's catch block (the
unshift and the exponential backoff) is unreachable, every task is executed
exactly once — the execution event records whether the caller's operation
succeeded — and the loop proceeds to the next task after the jitter sleep. -/
def drain : List QTask → List Event
  | [] => []
  | ⟨i, f, a⟩ :: rest =>
      Event.exec i a (f == 0) :: Event.jitter :: drain rest

/-- Projection of a trace to its execution events `(id, attempt, success)`. -/
def execEvents (tr : List Event) : List (Nat × Nat × Bool) :=
  tr.filterMap fun e =>
    match e with
    | Event.exec i a s => some (i, a, s)
    | _ => none

/-- State of a `RequestQueue` instance: the pending `queue`, the `processing`
flag, and a ghost counter of currently active drain loops (`workers`). -/
structure QueueState where
  queue : List QTask
  processing : Bool
  workers : Nat
deriving DecidableEq, Repr

/-- `RequestQueue.processQueue` entry guard: if a drain loop is already running
or the queue is empty it returns immediately; otherwise it sets `processing`
and a drain loop starts (ghost `workers` incremented). -/
def processQueueInvoke (s : QueueState) : QueueState :=
  if s.processing || s.queue.isEmpty then s
  else { s with processing := true, workers := s.workers + 1 }

/-- `RequestQueue.add`: push the wrapped request at the tail of the queue, then
invoke `processQueue`. -/
def addTask (s : QueueState) (t : QTask) : QueueState :=
  processQueueInvoke { s with queue := s.queue ++ [t] }

/-- One iteration of an active drain loop: with an empty queue the loop exits
and clears `processing`; otherwise the head task is shifted and executed — the
wrapper built by `RequestQueue.add` returns normally even when the caller's
operation fails, so the head is always consumed. -/
def workerStep (s : QueueState) : QueueState :=
  match s.queue with
  | [] => { s with processing := false, workers := s.workers - 1 }
  | _ :: rest => { s with queue := rest }

/-- Reachable states of a `RequestQueue`: from the initial idle state, by
enqueuing tasks (`RequestQueue.add`) and by iterations of an active drain
loop. -/
inductive QueueReachable : QueueState → Prop
  | init : QueueReachable ⟨[], false, 0⟩
  | add (s : QueueState) (t : QTask) : QueueReachable s → QueueReachable (addTask s t)
  | work (s : QueueState) : QueueReachable s → 1 ≤ s.workers → QueueReachable (workerStep s)

/-- A thrown error as inspected by `executeWithTokenRefresh`: the `code` and
`message` properties, either of which may be absent. -/
structure TwitterError where
  code : Option Nat
  message : Option String
deriving DecidableEq, Repr

/-- Whether the first character list starts with the second. -/
def leadsWith : List Char → List Char → Bool
  | _, [] => true
  | [], _ :: _ => false
  | c :: cs, p :: ps => c == p && leadsWith cs ps

/-- Whether the second character list occurs inside the first. -/
def hasSub : List Char → List Char → Bool
  | [], pat => pat.isEmpty
  | c :: cs, pat => leadsWith (c :: cs) pat || hasSub cs pat

/-- JavaScript `String.prototype.includes`: `pat` occurs as a substring. -/
def jsIncludes (s pat : String) : Bool := hasSub s.data pat.data

/-- The credential-expired classifier of `executeWithTokenRefresh`:
`error.code === 401 || (error.message && error.message.includes("token"))`. -/
def isTokenExpiredError (e : TwitterError) : Bool :=
  e.code == some 401 ||
    (match e.message with
     | some m => jsIncludes m "token"
     | none => false)

/-- The fixed rate-limit cooldown of `executeWithTokenRefresh`:
`25 * 60 * 60 * 1000` ms; the `setTimeout` adds a further 1000 ms. -/
def rateLimitWaitMs : Nat := 25 * 60 * 60 * 1000

/-- Observable outcome of one `executeWithTokenRefresh` run: the value returned
or error thrown, how many token refreshes were triggered, the sleeps performed
(ms), and how many times `operation` was invoked. -/
structure ExecOutcome (α : Type) where
  result : Except TwitterError α
  refreshes : Nat
  sleepsMs : List Nat
  attempts : Nat

/-- `ClientBase.executeWithTokenRefresh`: run `operation`; on a failure whose
error is classified credential-expired, refresh the token
(`refreshTwitterToken`, whose own outcome is `refreshResult`: `none` means it
succeeded, `some re` that it rethrew `re`) and retry once; on a failure with
`code === 429`, sleep the fixed cooldown plus 1000 ms and retry once; any other
failure is rethrown unchanged. The `operation` argument maps the invocation
index to that invocation's outcome. -/
def executeWithTokenRefresh {α : Type} (operation : Nat → Except TwitterError α)
    (refreshResult : Option TwitterError) : ExecOutcome α :=
  match operation 0 with
  | Except.ok v => { result := Except.ok v, refreshes := 0, sleepsMs := [], attempts := 1 }
  | Except.error e =>
    if isTokenExpiredError e then
      match refreshResult with
      | none => { result := operation 1, refreshes := 1, sleepsMs := [], attempts := 2 }
      | some re => { result := Except.error re, refreshes := 1, sleepsMs := [], attempts := 1 }
    else if e.code == some 429 then
      { result := operation 1, refreshes := 0
        sleepsMs := [rateLimitWaitMs + 1000], attempts := 2 }
    else
      { result := Except.error e, refreshes := 0, sleepsMs := [], attempts := 1 }

/-- The `Tweet` record of `base.ts` (the fields relevant to the cache layer;
`conversationId` is a string wherever `cacheTweet`/`getTweet` handle it, since
`getTweet` falls back to the tweet id when `conversation_id` is missing). -/
structure Tweet where
  id : String
  text : String
  conversationId : String
  createdAt : String
  userId : String
  timestamp : Nat
deriving DecidableEq, Repr

/-- One persisted cache file `tweetcache/<conversationId>/<tweetId>.json`,
holding the serialized tweet. -/
structure CacheFile where
  conversationId : String
  tweetId : String
  tweet : Tweet
deriving DecidableEq, Repr

/-- The cache state of a `ClientBase` instance: the in-memory `tweetCache` map
(newest entry first) and the persistent `tweetcache` directory tree. -/
structure ClientState where
  tweetCache : List (String × Tweet)
  files : List CacheFile
deriving DecidableEq, Repr

/-- `this.tweetCache.get(id)` (after `has`): newest entry for `id`. -/
def lookupMemoryCache (s : ClientState) (tweetId : String) : Option Tweet :=
  (s.tweetCache.find? fun p => p.1 == tweetId).map Prod.snd

/-- Read of the persisted entry at partition `conversationId`, name
`tweetId`. -/
def lookupFileCache (s : ClientState) (conversationId tweetId : String) : Option Tweet :=
  (s.files.find? fun f => f.conversationId == conversationId && f.tweetId == tweetId).map
    CacheFile.tweet

/-- The `glob` lookup of `getCachedTweet`: first file matching
`tweetcache/*/<tweetId>.json`. -/
def globTweetFile (s : ClientState) (tweetId : String) : Option CacheFile :=
  s.files.find? fun f => f.tweetId == tweetId

/-- The awaited `mkdir` + `writeFile` of `cacheTweet`: durably persist the
tweet under its `conversationId` partition, named by its `id`. -/
def writeTweetFile (s : ClientState) (t : Tweet) : ClientState :=
  { s with files := { conversationId := t.conversationId, tweetId := t.id, tweet := t } :: s.files }

/-- `this.tweetCache.set(tweet.id, tweet)`. -/
def setTweetCache (s : ClientState) (t : Tweet) : ClientState :=
  { s with tweetCache := (t.id, t) :: s.tweetCache }

/-- `ClientBase.cacheTweet`: a missing (`undefined`/`null`) tweet is skipped
with a warning; otherwise the persistent entry is written (awaited) and then
the in-memory map is updated. -/
def cacheTweet (s : ClientState) (tweet : Option Tweet) : ClientState :=
  match tweet with
  | none => s
  | some t => setTweetCache (writeTweetFile s t) t

/-- `ClientBase.getCachedTweet`: serve from the in-memory map if present; else
glob the persistent layer across all partitions, and on a hit populate the
in-memory map (under the stored tweet's `id`) before returning; else miss. -/
def getCachedTweet (s : ClientState) (tweetId : String) : Option Tweet × ClientState :=
  match lookupMemoryCache s tweetId with
  | some t => (some t, s)
  | none =>
    match globTweetFile s tweetId with
    | some f => (some f.tweet, setTweetCache s f.tweet)
    | none => (none, s)

/-- `ClientBase.getTweet`: read-through fetch. On cache miss the remote call
(through `executeWithTokenRefresh`, modelled here as the successful fetch
`remote`) is performed and the result passed to `cacheTweet` before being
returned. The `Nat` component counts remote fetches performed by the call. -/
def getTweet (remote : String → Tweet) (s : ClientState) (tweetId : String) :
    Tweet × ClientState × Nat :=
  match getCachedTweet s tweetId with
  | (some t, s1) => (t, s1, 0)
  | (none, s1) => (remote tweetId, cacheTweet s1 (some (remote tweetId)), 1)

/-- A sequence of `getTweet` calls over a process lifetime, threading the cache
state. -/
def runGetTweets (remote : String → Tweet) (s : ClientState) : List String → ClientState
  | [] => s
  | y :: ys => runGetTweets remote (getTweet remote s y).2.1 ys

/-- Well-formedness of the persisted cache: every file holds a tweet whose `id`
equals the file's name, as `cacheTweet` always writes it. -/
def TweetFilesWF (s : ClientState) : Prop := ∀ f ∈ s.files, f.tweet.id = f.tweetId

/-- A remote endpoint for witnesses: returns a tweet whose `id` is the
requested id. -/
def wRemote : String → Tweet :=
  fun y => { id := y, text := "t", conversationId := y, createdAt := "c", userId := "u",
             timestamp := 0 }

/-- A tweet as it reaches the reconciliation step of `populateTimeline` (built
from wire data or from `timeline_cache.json`): `conversationId` can be absent
(`null`/`undefined`). -/
structure TimelineTweet where
  id : String
  conversationId : Option String
  userId : String
deriving DecidableEq, Repr

/-- A record of the durable store (a memory row): its `id` and its `roomId`. -/
structure MemoryRecord where
  id : String
  roomId : String
deriving DecidableEq, Repr

/-- Modelled from the spec: `stringToUuid` lives in the repository's core
package (`packages/core/src/uuid.ts`, not under `src/`); the spec asks for "a
deterministic composite id derived from `FetchedObject.id` and the owning
agent/session", so it is modelled as an injective deterministic encoding of its
input string. -/
def stringToUuid (s : String) : String := "uuid-" ++ s

/-- Modelled from the spec: the external record store's query
(`messageManager.getMemoriesByRoomIds`, an adapter outside `src/`); per the
spec's "query-by-group capability" it returns the stored records whose `roomId`
is among the requested ids. -/
def getMemoriesByRoomIds (store : List MemoryRecord) (roomIds : List String) :
    List MemoryRecord :=
  store.filter fun m => roomIds.contains m.roomId

/-- The room id `populateTimeline` assigns a tweet when saving it:
`stringToUuid(tweet.conversationId ?? "default-room-" + agentId)`. -/
def timelineRoomId (agentId : String) (t : TimelineTweet) : String :=
  stringToUuid (t.conversationId.getD ("default-room-" ++ agentId))

/-- The reconciliation filter of `populateTimeline` (fresh-fetch branch): build
the set of composite UUIDs `stringToUuid(tweet.id + "-" + agentId)` of the
batch, fetch existing memories with those UUIDs passed as `roomIds`, collect
the `roomId`s of the results, and keep the tweets whose composite UUID is not
among them. -/
def tweetsToSave (agentId : String) (store : List MemoryRecord)
    (allTweets : List TimelineTweet) : List TimelineTweet :=
  let tweetUuids := ((allTweets.map TimelineTweet.id).eraseDups).map
    fun id => stringToUuid (id ++ "-" ++ agentId)
  let existingMemoryIds := (getMemoriesByRoomIds store tweetUuids).map MemoryRecord.roomId
  allTweets.filter fun t => !existingMemoryIds.contains (stringToUuid (t.id ++ "-" ++ agentId))

/-- The save loop of `populateTimeline`: each tweet kept by the filter is
stored as a memory with id `stringToUuid(tweet.id + "-" + agentId)` and room
`stringToUuid(tweet.conversationId ?? "default-room-" + agentId)`. -/
def saveTimelineTweets (agentId : String) (store : List MemoryRecord)
    (allTweets : List TimelineTweet) : List MemoryRecord :=
  store ++ (tweetsToSave agentId store allTweets).map
    fun t => { id := stringToUuid (t.id ++ "-" ++ agentId), roomId := timelineRoomId agentId t }

/-- C1 (evaluated at the failing input): enqueue task 1, whose operation
rejects on its first attempt, with task 2 enqueued after it. Because the
wrapper built by `RequestQueue.add` rejects the caller's promise and returns
normally, the drain loop observes no exception: task 1 is executed exactly
once (its promise rejected), it is never re-inserted at the head, no
exponential backoff sleep occurs anywhere in the trace, and task 2's first
attempt follows directly after the jitter sleep — the head re-insertion,
retry-before-later-tasks and queue-length-keyed backoff that the claim
describes never happen. -/
theorem requestQueue_no_retry_bug :
    drain [⟨1, 1, 0⟩, ⟨2, 0, 0⟩]
      = [Event.exec 1 0 false, Event.jitter, Event.exec 2 0 true, Event.jitter] := by
  decide

/-- C2: tasks enqueued via `RequestQueue.add` that each succeed on their first
attempt are executed — and their promises fulfilled — in strict FIFO enqueue
order: the execution trace is exactly one successful first attempt per task, in
the order of the queue. -/
theorem requestQueue_fifo (ids : List Nat) :
    execEvents (drain (ids.map fun i => ⟨i, 0, 0⟩)) = ids.map fun i => (i, 0, true) := by
  induction ids with
  | nil => simp [drain, execEvents]
  | cons i is ih =>
    simp only [List.map_cons, drain, execEvents, List.filterMap_cons] at ih ⊢
    simpa using ih

/-- C3: `processQueue` invoked while a drain loop is running (`processing`
true) or with an empty queue returns immediately leaving the state unchanged,
so no second loop starts; and in every reachable queue state the `processing`
flag holds exactly while a drain loop runs, hence at most one drain worker is
ever active. -/
theorem requestQueue_single_worker :
    (∀ s : QueueState, s.processing = true ∨ s.queue = [] → processQueueInvoke s = s)
    ∧ ∀ s : QueueState, QueueReachable s →
        ((s.processing = true ↔ s.workers = 1) ∧ s.workers ≤ 1) := by
  constructor
  · intro s h
    rcases h with h | h <;> simp [processQueueInvoke, h]
  · intro s hs
    induction hs with
    | init => simp
    | add s t _ ih =>
      have hne : (s.queue ++ [t]).isEmpty = false := by simp
      by_cases hp : s.processing
      · simpa [addTask, processQueueInvoke, hp, hne] using ih
      · have hw1 : s.workers ≠ 1 := fun h => hp (by simp [ih.1.mpr h])
        have hw0 : s.workers = 0 := by omega
        simp [addTask, processQueueInvoke, hp, hne, hw0]
    | work s _ hw ih =>
      have hw1 : s.workers = 1 := by omega
      have hp : s.processing = true := ih.1.mpr hw1
      cases hq : s.queue with
      | nil =>
        simp [workerStep, hq]
        omega
      | cons t rest => simp [workerStep, hq, hp, hw1]

theorem requestQueue_single_worker_witness :
    processQueueInvoke ⟨[⟨1, 1, 0⟩], true, 1⟩ = ⟨[⟨1, 1, 0⟩], true, 1⟩
    ∧ (((⟨[], false, 0⟩ : QueueState).processing = true
          ↔ (⟨[], false, 0⟩ : QueueState).workers = 1)
       ∧ (⟨[], false, 0⟩ : QueueState).workers ≤ 1) :=
  ⟨requestQueue_single_worker.1 ⟨[⟨1, 1, 0⟩], true, 1⟩ (Or.inl rfl),
   requestQueue_single_worker.2 ⟨[], false, 0⟩ QueueReachable.init⟩

/-- C4: an operation failing once with a credential-expired error (code 401 or
message containing "token") triggers exactly one token refresh and one retry:
if the retry succeeds its result is returned, and if it fails that second
failure propagates unmodified with no further refresh or retry (the operation
runs exactly twice). -/
theorem executeWithTokenRefresh_refresh_once {α : Type}
    (operation : Nat → Except TwitterError α) (e : TwitterError)
    (h0 : operation 0 = Except.error e) (htok : isTokenExpiredError e = true) :
    (∀ v : α, operation 1 = Except.ok v →
      executeWithTokenRefresh operation none =
        { result := Except.ok v, refreshes := 1, sleepsMs := [], attempts := 2 })
    ∧ ∀ e2 : TwitterError, operation 1 = Except.error e2 →
      executeWithTokenRefresh operation none =
        { result := Except.error e2, refreshes := 1, sleepsMs := [], attempts := 2 } := by
  constructor
  · intro v h1
    simp [executeWithTokenRefresh, h0, htok, h1]
  · intro e2 h1
    simp [executeWithTokenRefresh, h0, htok, h1]

theorem executeWithTokenRefresh_refresh_once_witness :
    executeWithTokenRefresh
        (fun n => if n = 0 then Except.error { code := some 401, message := none }
                  else Except.ok (5 : Nat)) none =
      { result := Except.ok 5, refreshes := 1, sleepsMs := [], attempts := 2 } :=
  (executeWithTokenRefresh_refresh_once _ { code := some 401, message := none }
    rfl rfl).1 5 rfl

/-- C5 (amended): an operation failing with status code 429 that is *not* also
classified credential-expired (no 401 code, message without "token") suspends
execution for the fixed cooldown `25 * 60 * 60 * 1000 + 1000` ms — no
incremental backoff — and is then retried exactly once, whatever that retry
yields; a failure classified neither credential-expired nor rate-limited
propagates to the caller unchanged with no retry. -/
theorem executeWithTokenRefresh_rate_limited {α : Type}
    (operation : Nat → Except TwitterError α) (e : TwitterError)
    (r : Option TwitterError)
    (h0 : operation 0 = Except.error e) (htok : isTokenExpiredError e = false) :
    (e.code = some 429 →
      executeWithTokenRefresh operation r =
        { result := operation 1, refreshes := 0,
          sleepsMs := [rateLimitWaitMs + 1000], attempts := 2 })
    ∧ (e.code ≠ some 429 →
      executeWithTokenRefresh operation r =
        { result := Except.error e, refreshes := 0, sleepsMs := [], attempts := 1 }) := by
  constructor
  · intro h429
    simp [executeWithTokenRefresh, h0, htok, h429]
  · intro h429
    simp [executeWithTokenRefresh, h0, htok, h429]

theorem executeWithTokenRefresh_rate_limited_witness :
    executeWithTokenRefresh
        (fun n => if n = 0 then Except.error { code := some 429, message := none }
                  else Except.ok (7 : Nat)) none =
      { result := Except.ok 7, refreshes := 0,
        sleepsMs := [rateLimitWaitMs + 1000], attempts := 2 } :=
  (executeWithTokenRefresh_rate_limited
    (fun n => if n = 0 then Except.error { code := some 429, message := none }
              else Except.ok (7 : Nat)) { code := some 429, message := none } none
    rfl rfl).1 rfl

/-- C5 counterexample: a failure whose status code is 429 but whose message
contains "token" is classified credential-expired first, so it takes the
refresh path: one token refresh and *no* cooldown sleep at all, contradicting
the claim that every 429 failure suspends for the fixed cooldown window before
its retry. -/
theorem executeWithTokenRefresh_429_counterexample :
    (executeWithTokenRefresh
        (fun n => if n = 0
            then Except.error { code := some 429, message := some "token limit reached" }
            else Except.ok (7 : Nat)) none).sleepsMs = []
    ∧ (executeWithTokenRefresh
        (fun n => if n = 0
            then Except.error { code := some 429, message := some "token limit reached" }
            else Except.ok (7 : Nat)) none).refreshes = 1 := by
  constructor <;> decide

/-- C6: for a defined tweet, `cacheTweet` first durably writes the persistent
entry under the tweet's `conversationId` partition named by its `id`, and then
inserts the tweet into the in-memory map under its `id`; afterwards the
persisted copy and the in-memory copy are both that tweet, hence identical. -/
theorem cacheTweet_writes_then_caches (s : ClientState) (t : Tweet) :
    cacheTweet s (some t) = setTweetCache (writeTweetFile s t) t
    ∧ lookupFileCache (cacheTweet s (some t)) t.conversationId t.id = some t
    ∧ lookupMemoryCache (cacheTweet s (some t)) t.id = some t
    ∧ lookupFileCache (cacheTweet s (some t)) t.conversationId t.id
        = lookupMemoryCache (cacheTweet s (some t)) t.id := by
  refine ⟨rfl, ?_, ?_, ?_⟩
  · simp [cacheTweet, setTweetCache, writeTweetFile, lookupFileCache]
  · simp [cacheTweet, setTweetCache, writeTweetFile, lookupMemoryCache]
  · simp [cacheTweet, setTweetCache, writeTweetFile, lookupFileCache, lookupMemoryCache]

/-- C10: `cacheTweet` called with an `undefined`/`null` tweet returns without
error and leaves the whole client state unchanged: no file is written and the
in-memory map is untouched. -/
theorem cacheTweet_undefined_noop (s : ClientState) : cacheTweet s none = s := rfl

theorem getTweet_preserves_wf (remote : String → Tweet) (s : ClientState) (y : String)
    (hwf : TweetFilesWF s) : TweetFilesWF (getTweet remote s y).2.1 := by
  unfold getTweet getCachedTweet
  cases hm : lookupMemoryCache s y with
  | some t => exact hwf
  | none =>
    cases hg : globTweetFile s y with
    | some f => exact hwf
    | none =>
      intro f hf
      rcases List.mem_cons.mp hf with rfl | hf
      · rfl
      · exact hwf f hf

theorem getTweet_memHit (remote : String → Tweet) (s : ClientState) (x : String) (t : Tweet)
    (hm : lookupMemoryCache s x = some t) : getTweet remote s x = (t, s, 0) := by
  simp [getTweet, getCachedTweet, hm]

theorem getTweet_fileHit (remote : String → Tweet) (s : ClientState) (x : String)
    (f : CacheFile) (hm : lookupMemoryCache s x = none) (hg : globTweetFile s x = some f) :
    getTweet remote s x = (f.tweet, setTweetCache s f.tweet, 0) := by
  simp [getTweet, getCachedTweet, hm, hg]

theorem getTweet_missEq (remote : String → Tweet) (s : ClientState) (x : String)
    (hm : lookupMemoryCache s x = none) (hg : globTweetFile s x = none) :
    getTweet remote s x = (remote x, cacheTweet s (some (remote x)), 1) := by
  simp [getTweet, getCachedTweet, hm, hg]

theorem lookupMemoryCache_set (s : ClientState) (t : Tweet) (x : String) :
    lookupMemoryCache (setTweetCache s t) x
      = if t.id = x then some t else lookupMemoryCache s x := by
  by_cases h : t.id = x <;>
    simp [lookupMemoryCache, setTweetCache, List.find?_cons, h]

theorem getTweet_preserves_mem (remote : String → Tweet) (s : ClientState) (x y : String)
    (t : Tweet) (hr : ∀ z, (remote z).id = z) (hwf : TweetFilesWF s)
    (hx : lookupMemoryCache s x = some t) :
    lookupMemoryCache (getTweet remote s y).2.1 x = some t := by
  cases hm : lookupMemoryCache s y with
  | some u =>
    rw [getTweet_memHit remote s y u hm]
    exact hx
  | none =>
    have hxy : y ≠ x := fun h => by rw [h, hx] at hm; cases hm
    cases hg : globTweetFile s y with
    | some f =>
      have hfid : f.tweet.id = y := by
        rw [hwf f (List.mem_of_find?_eq_some hg)]
        have := List.find?_some hg
        simpa using this
      rw [getTweet_fileHit remote s y f hm hg]
      show lookupMemoryCache (setTweetCache s f.tweet) x = some t
      rw [lookupMemoryCache_set, if_neg (fun h => hxy (by rw [← hfid]; exact h))]
      exact hx
    | none =>
      rw [getTweet_missEq remote s y hm hg]
      show lookupMemoryCache (setTweetCache (writeTweetFile s (remote y)) (remote y)) x
        = some t
      rw [lookupMemoryCache_set, if_neg (fun h => hxy (by rw [← hr y]; exact h))]
      exact hx

theorem getTweet_caches_result (remote : String → Tweet) (s : ClientState) (x : String)
    (hr : ∀ z, (remote z).id = z) (hwf : TweetFilesWF s) :
    lookupMemoryCache (getTweet remote s x).2.1 x = some (getTweet remote s x).1 := by
  cases hm : lookupMemoryCache s x with
  | some t =>
    rw [getTweet_memHit remote s x t hm]
    exact hm
  | none =>
    cases hg : globTweetFile s x with
    | some f =>
      have hfid : f.tweet.id = x := by
        rw [hwf f (List.mem_of_find?_eq_some hg)]
        have := List.find?_some hg
        simpa using this
      rw [getTweet_fileHit remote s x f hm hg]
      show lookupMemoryCache (setTweetCache s f.tweet) x = some f.tweet
      rw [lookupMemoryCache_set, if_pos hfid]
    | none =>
      rw [getTweet_missEq remote s x hm hg]
      show lookupMemoryCache (setTweetCache (writeTweetFile s (remote x)) (remote x)) x
        = some (remote x)
      rw [lookupMemoryCache_set, if_pos (hr x)]

theorem runGetTweets_preserves_wf (remote : String → Tweet) (ys : List String)
    (s : ClientState) (hwf : TweetFilesWF s) : TweetFilesWF (runGetTweets remote s ys) := by
  induction ys generalizing s with
  | nil => exact hwf
  | cons y ys ih => exact ih _ (getTweet_preserves_wf remote s y hwf)

theorem runGetTweets_preserves_mem (remote : String → Tweet) (ys : List String)
    (s : ClientState) (x : String) (t : Tweet)
    (hr : ∀ z, (remote z).id = z) (hwf : TweetFilesWF s)
    (hx : lookupMemoryCache s x = some t) :
    lookupMemoryCache (runGetTweets remote s ys) x = some t := by
  induction ys generalizing s with
  | nil => exact hx
  | cons y ys ih =>
    exact ih _ (getTweet_preserves_wf remote s y hwf)
      (getTweet_preserves_mem remote s x y t hr hwf hx)

/-- C7: with a remote endpoint that returns the tweet with the requested id and
a well-formed persisted cache, a `getTweet x` call performs at most one remote
fetch (exactly one when `getCachedTweet` misses), and any later `getTweet x`
call — after arbitrarily many interleaved `getTweet` calls — performs zero
remote fetches and returns the identical tweet, so at most one remote fetch per
tweet id occurs over the process lifetime. -/
theorem getTweet_at_most_one_fetch (remote : String → Tweet) (s : ClientState)
    (x : String) (ys : List String)
    (hr : ∀ z, (remote z).id = z) (hwf : TweetFilesWF s) :
    (getTweet remote (runGetTweets remote (getTweet remote s x).2.1 ys) x).1
        = (getTweet remote s x).1
    ∧ (getTweet remote (runGetTweets remote (getTweet remote s x).2.1 ys) x).2.2 = 0
    ∧ (getTweet remote s x).2.2 ≤ 1
    ∧ ((getCachedTweet s x).1 = none → (getTweet remote s x).2.2 = 1) := by
  have hwf1 : TweetFilesWF (getTweet remote s x).2.1 := getTweet_preserves_wf remote s x hwf
  have h1 : lookupMemoryCache (getTweet remote s x).2.1 x = some (getTweet remote s x).1 :=
    getTweet_caches_result remote s x hr hwf
  have h2 : lookupMemoryCache (runGetTweets remote (getTweet remote s x).2.1 ys) x
      = some (getTweet remote s x).1 :=
    runGetTweets_preserves_mem remote ys _ x _ hr hwf1 h1
  have h3 : getTweet remote (runGetTweets remote (getTweet remote s x).2.1 ys) x
      = ((getTweet remote s x).1, runGetTweets remote (getTweet remote s x).2.1 ys, 0) :=
    getTweet_memHit remote _ x _ h2
  refine ⟨by rw [h3], by rw [h3], ?_, ?_⟩
  · rcases hgc : getCachedTweet s x with ⟨o, s1⟩
    cases o <;> simp [getTweet, hgc]
  · intro h
    rcases hgc : getCachedTweet s x with ⟨o, s1⟩
    rw [hgc] at h
    simp only at h
    subst h
    simp [getTweet, hgc]

theorem getTweet_at_most_one_fetch_witness :
    ((getTweet wRemote (runGetTweets wRemote (getTweet wRemote ⟨[], []⟩ "42").2.1 ["7"]) "42").1
        = (getTweet wRemote ⟨[], []⟩ "42").1)
    ∧ (getTweet wRemote (runGetTweets wRemote (getTweet wRemote ⟨[], []⟩ "42").2.1 ["7"]) "42").2.2
        = 0
    ∧ (getTweet wRemote ⟨[], []⟩ "42").2.2 ≤ 1
    ∧ ((getCachedTweet ⟨[], []⟩ "42").1 = none
        → (getTweet wRemote ⟨[], []⟩ "42").2.2 = 1) :=
  getTweet_at_most_one_fetch wRemote ⟨[], []⟩ "42" ["7"] (fun _ => rfl)
    (fun f hf => absurd hf (List.not_mem_nil f))

/-- C8 (evaluated at the failing input): with tweet `A` already recorded in the
store exactly as `populateTimeline` itself records tweets (memory id =
composite UUID of the tweet id and agent id, memory `roomId` = UUID of the
conversation id), the reconciliation filter still emits all of `A`, `B`, `C`
rather than only `B` and `C` — the existence query matches `roomId`s against
composite tweet UUIDs, which never coincide with the conversation-derived
`roomId`s actually stored — and after `B` and `C` (and `A` again) are
inserted, re-running on the same batch re-emits all three instead of none. -/
theorem populateTimeline_duplicate_ingest :
    tweetsToSave "agent"
        [{ id := stringToUuid "100-agent", roomId := stringToUuid "c1" }]
        [{ id := "100", conversationId := some "c1", userId := "u1" },
         { id := "200", conversationId := some "c2", userId := "u2" },
         { id := "300", conversationId := some "c3", userId := "u3" }]
      = [{ id := "100", conversationId := some "c1", userId := "u1" },
         { id := "200", conversationId := some "c2", userId := "u2" },
         { id := "300", conversationId := some "c3", userId := "u3" }]
    ∧ tweetsToSave "agent"
        (saveTimelineTweets "agent"
          [{ id := stringToUuid "100-agent", roomId := stringToUuid "c1" }]
          [{ id := "100", conversationId := some "c1", userId := "u1" },
           { id := "200", conversationId := some "c2", userId := "u2" },
           { id := "300", conversationId := some "c3", userId := "u3" }])
        [{ id := "100", conversationId := some "c1", userId := "u1" },
         { id := "200", conversationId := some "c2", userId := "u2" },
         { id := "300", conversationId := some "c3", userId := "u3" }]
      = [{ id := "100", conversationId := some "c1", userId := "u1" },
         { id := "200", conversationId := some "c2", userId := "u2" },
         { id := "300", conversationId := some "c3", userId := "u3" }] := by
  constructor <;> decide

theorem string_append_cancel_left {s a b : String} (h : s ++ a = s ++ b) : a = b := by
  have hd : (s ++ a).data = (s ++ b).data := congrArg String.data h
  rw [String.data_append, String.data_append] at hd
  have : a.data = b.data := List.append_cancel_left hd
  cases a
  cases b
  simp only at this
  rw [this]

theorem stringToUuid_inj {a b : String} (h : stringToUuid a = stringToUuid b) : a = b :=
  string_append_cancel_left h

/-- C9: a reconciled tweet with no `conversationId` (`null`/`undefined`) is
saved into the synthesized fallback room
`stringToUuid("default-room-" + agentId)`, an identifier derived from the
ingesting agent's id, and distinct agents get distinct fallback rooms. -/
theorem populateTimeline_fallback_room :
    (∀ (agentId : String) (t : TimelineTweet), t.conversationId = none →
      timelineRoomId agentId t = stringToUuid ("default-room-" ++ agentId))
    ∧ ∀ a1 a2 : String, a1 ≠ a2 →
      stringToUuid ("default-room-" ++ a1) ≠ stringToUuid ("default-room-" ++ a2) := by
  constructor
  · intro agentId t h
    simp [timelineRoomId, h]
  · intro a1 a2 hne h
    exact hne (string_append_cancel_left (stringToUuid_inj h))

theorem populateTimeline_fallback_room_witness :
    timelineRoomId "agentA" ⟨"1", none, "u"⟩ = stringToUuid ("default-room-" ++ "agentA")
    ∧ stringToUuid ("default-room-" ++ "agentA")
        ≠ stringToUuid ("default-room-" ++ "agentB") :=
  ⟨populateTimeline_fallback_room.1 "agentA" ⟨"1", none, "u"⟩ rfl,
   populateTimeline_fallback_room.2 "agentA" "agentB" (by decide)⟩
